import Mathlib

/-!
Verification development for the canvas-copilot verification engine
(`verification_system.py`).  Python strings are modelled as `List Char`,
Python numbers (confidence factors, points) as `Rat`, dictionaries with
optional keys as structures of `Option` fields, and the JSON decoding done
by `json.loads` as a small executable recursive-descent parser over
`List Char`.  The injected LLM capability is modelled by its observable
behaviour: absent, raising, or returning a fixed response text.
-/

set_option maxRecDepth 4000

namespace CanvasCopilot

/-- Whitespace characters as treated by Python's `str.strip` and the `\s`
regex class (ASCII part, which is all the engine manipulates). -/
def isWs (c : Char) : Bool :=
  c = ' ' || c = '\t' || c = '\n' || c = '\r' ||
    c = Char.ofNat 11 || c = Char.ofNat 12

/-- Remove leading whitespace (left part of Python `str.strip`). -/
def trimL (cs : List Char) : List Char := cs.dropWhile isWs

/-- Remove trailing whitespace (right part of Python `str.strip`). -/
def trimR (cs : List Char) : List Char := (trimL cs.reverse).reverse

/-- Python `str.strip()` with no argument: trim both ends. -/
def pyStrip (cs : List Char) : List Char := trimR (trimL cs)

/-- Python `str.lower()` (ASCII, which covers every term the code lowers). -/
def pyLower (cs : List Char) : List Char := cs.map Char.toLower

/-- Python substring containment `needle in hay` for strings. -/
def pyInStr (needle hay : List Char) : Bool :=
  hay.tails.any (fun t => needle.isPrefixOf t)

/-- Python `len(l) != len(set(l))`: whether the list contains a duplicate. -/
def pyHasDup : List (List Char) → Bool
  | [] => false
  | x :: xs => xs.contains x || pyHasDup xs

/-- Decimal digits of a natural number, as characters (Python `str(n)`). -/
def natChars (n : Nat) : List Char := (Nat.repr n).data

/-- Python `str(i)` for an integer. -/
def intChars (i : Int) : List Char := (Int.repr i).data

/-- JSON values as decoded by `json.loads`: object keys are strings and,
per Python `dict` semantics, duplicate keys are collapsed (first position,
last value) by `ddedup` below. -/
inductive Json where
  | null : Json
  | bool (b : Bool) : Json
  | num (q : Rat) : Json
  | str (s : List Char) : Json
  | arr (elts : List Json) : Json
  | obj (kvs : List (List Char × Json)) : Json

/-- Look a key up in an association-list dictionary. -/
def dget (d : List (List Char × Json)) (k : List Char) : Option Json :=
  (d.find? (fun p => decide (p.1 = k))).map (fun p => p.2)

/-- Look a key up, with a default (total variant used where the Python code
has already ensured the key is present). -/
def dgetD (d : List (List Char × Json)) (k : List Char) (v : Json) : Json :=
  (dget d k).getD v

/-- Python `d[k] = v`: update an existing slot in place, else append. -/
def dinsert (d : List (List Char × Json)) (k : List Char) (v : Json) :
    List (List Char × Json) :=
  if (d.find? (fun p => decide (p.1 = k))).isSome then
    d.map (fun p => if p.1 = k then (k, v) else p)
  else d ++ [(k, v)]

/-- Build a Python dict from decoded key/value pairs (duplicate keys keep
the first position and the last value, as `json.loads` does). -/
def ddedup (kvs : List (List Char × Json)) : List (List Char × Json) :=
  kvs.foldl (fun d p => dinsert d p.1 p.2) []

/-- Value of a hexadecimal digit, for `\uXXXX` string escapes. -/
def hexVal (c : Char) : Option Nat :=
  if c.isDigit then some (c.toNat - '0'.toNat)
  else if 'a' ≤ c ∧ c ≤ 'f' then some (c.toNat - 'a'.toNat + 10)
  else if 'A' ≤ c ∧ c ≤ 'F' then some (c.toNat - 'A'.toNat + 10)
  else none

/-- Translation of a single-character JSON string escape. -/
def escChar (c : Char) : Option Char :=
  if c = '"' then some '"'
  else if c = '\\' then some '\\'
  else if c = '/' then some '/'
  else if c = 'b' then some (Char.ofNat 8)
  else if c = 'f' then some (Char.ofNat 12)
  else if c = 'n' then some '\n'
  else if c = 'r' then some '\r'
  else if c = 't' then some '\t'
  else none

/-- Parse the body of a JSON string (the opening quote already consumed),
returning the decoded characters and the remaining input. -/
def parseStr : List Char → Option (List Char × List Char)
  | [] => none
  | '"' :: rest => some ([], rest)
  | '\\' :: 'u' :: a :: b :: c :: d :: rest => do
      let va ← hexVal a
      let vb ← hexVal b
      let vc ← hexVal c
      let vd ← hexVal d
      let (s, r) ← parseStr rest
      pure (Char.ofNat (((va * 16 + vb) * 16 + vc) * 16 + vd) :: s, r)
  | '\\' :: e :: rest => do
      let c ← escChar e
      let (s, r) ← parseStr rest
      pure (c :: s, r)
  | '\\' :: [] => none
  | c :: rest => do
      let (s, r) ← parseStr rest
      pure (c :: s, r)

/-- Digit characters to the natural number they denote. -/
def digitsToNat (ds : List Char) : Nat :=
  ds.foldl (fun n c => 10 * n + (c.toNat - '0'.toNat)) 0

/-- Parse a JSON number starting at the given input (first character is a
digit or a minus sign); returns the value as a rational. -/
def parseNum (cs : List Char) : Option (Json × List Char) :=
  let (neg, cs1) := match cs with
    | '-' :: r => (true, r)
    | _ => (false, cs)
  let ds := cs1.takeWhile Char.isDigit
  let cs2 := cs1.dropWhile Char.isDigit
  if ds = [] then none else
  let intPart : Rat := (digitsToNat ds : Nat)
  let contFrac : Rat → List Char → Option (Json × List Char) :=
    fun q cs3 =>
      let contExp : Rat → List Char → Option (Json × List Char) :=
        fun q' cs4 =>
          let finish : Rat → List Char → Option (Json × List Char) :=
            fun v r => some (.num (if neg then -v else v), r)
          match cs4 with
          | 'e' :: r | 'E' :: r =>
            let (esign, r1) := match r with
              | '+' :: r' => ((1 : Int), r')
              | '-' :: r' => ((-1 : Int), r')
              | _ => ((1 : Int), r)
            let es := r1.takeWhile Char.isDigit
            let r2 := r1.dropWhile Char.isDigit
            if es = [] then none
            else finish (q' * (10 : Rat) ^ (esign * (digitsToNat es : Int))) r2
          | _ => finish q' cs4
      match cs3 with
      | '.' :: r =>
        let fs := r.takeWhile Char.isDigit
        let r1 := r.dropWhile Char.isDigit
        if fs = [] then none
        else contExp (q + (digitsToNat fs : Rat) / (10 : Rat) ^ fs.length) r1
      | _ => contExp q cs3
  contFrac intPart cs2

mutual

/-- Parse one JSON value (leading whitespace allowed), fuel-bounded. -/
def parseJ : Nat → List Char → Option (Json × List Char)
  | 0, _ => none
  | fuel + 1, cs =>
    match cs.dropWhile isWs with
    | [] => none
    | c :: rest =>
      if c = 'n' then
        if "ull".data.isPrefixOf rest then some (.null, rest.drop 3) else none
      else if c = 't' then
        if "rue".data.isPrefixOf rest then some (.bool true, rest.drop 3)
        else none
      else if c = 'f' then
        if "alse".data.isPrefixOf rest then some (.bool false, rest.drop 4)
        else none
      else if c = '"' then
        (parseStr rest).map (fun p => (.str p.1, p.2))
      else if c = '[' then
        match rest.dropWhile isWs with
        | ']' :: r => some (.arr [], r)
        | _ => (parseItems fuel rest).map (fun p => (.arr p.1, p.2))
      else if c = '\x7b' then
        match rest.dropWhile isWs with
        | '\x7d' :: r => some (.obj [], r)
        | _ => (parseMembers fuel rest).map (fun p => (.obj (ddedup p.1), p.2))
      else if c = '-' || c.isDigit then parseNum (c :: rest)
      else none

/-- Parse a non-empty comma-separated list of values ended by a closing
bracket. -/
def parseItems : Nat → List Char → Option (List Json × List Char)
  | 0, _ => none
  | fuel + 1, cs => do
    let (v, r) ← parseJ fuel cs
    match r.dropWhile isWs with
    | ',' :: r1 => do
      let (vs, r2) ← parseItems fuel r1
      pure (v :: vs, r2)
    | ']' :: r1 => pure ([v], r1)
    | _ => none

/-- Parse a non-empty comma-separated list of string-keyed members ended by
a closing brace. -/
def parseMembers : Nat → List Char → Option (List (List Char × Json) × List Char)
  | 0, _ => none
  | fuel + 1, cs =>
    match cs.dropWhile isWs with
    | '"' :: r => do
      let (k, r1) ← parseStr r
      match r1.dropWhile isWs with
      | ':' :: r2 => do
        let (v, r3) ← parseJ fuel r2
        match r3.dropWhile isWs with
        | ',' :: r4 => do
          let (kvs, r5) ← parseMembers fuel r4
          pure ((k, v) :: kvs, r5)
        | '\x7d' :: r4 => pure ([(k, v)], r4)
        | _ => none
      | _ => none
    | _ => none

end

/-- Model of Python `json.loads`: parse one value and require only
whitespace to remain.  (Slightly lenient on number syntax: leading zeros
are accepted; this affects no behaviour the engine depends on.) -/
def jsonLoads (cs : List Char) : Option Json :=
  match parseJ (2 * cs.length + 2) cs with
  | some (v, rest) => if rest.dropWhile isWs = [] then some v else none
  | none => none

/-! ## Semantic verifier (`verify_with_llm`) -/

/-- Observable behaviour of the injected LLM capability together with the
module-level registration state: either `set_llm_function` was never called
(`_llm_function is None`), or the call raises, or it returns a fixed
response text.  The prompt built from `content`/`content_type`/
`verification_prompt` is passed to the capability but does not influence
which of these cases occurs, so it is not part of the model. -/
inductive LLMBehaviour where
  | noCapability : LLMBehaviour
  | raises : LLMBehaviour
  | returns (text : List Char) : LLMBehaviour

def fenceChars : List Char := "```".data

/-- Model of `re.sub(r"^```(?:json)?\s*", "", s)`: the anchored pattern
either matches a prefix (greedy optional `json`, then maximal whitespace)
which is removed, or the string is unchanged. -/
def stripFenceOpen (cs : List Char) : List Char :=
  if fenceChars.isPrefixOf cs then
    let rest := cs.drop 3
    let rest := if "json".data.isPrefixOf rest then rest.drop 4 else rest
    rest.dropWhile isWs
  else cs

/-- Model of `re.sub(r"\s*```$", "", s)`: if the string ends with three
backticks, remove them together with the maximal run of whitespace before
them; otherwise unchanged. -/
def stripFenceClose (cs : List Char) : List Char :=
  if fenceChars.isPrefixOf cs.reverse then
    ((cs.reverse.drop 3).dropWhile isWs).reverse
  else cs

/-- The response-decoding pipeline of `verify_with_llm`: strip, remove
code-fence markers when the text starts with one, strip again, decode. -/
def decodeResponse (response : List Char) : Option Json :=
  let json_text := pyStrip response
  let json_text :=
    if fenceChars.isPrefixOf json_text then
      pyStrip (stripFenceClose (stripFenceOpen json_text))
    else json_text
  jsonLoads json_text

def kConfidence : List Char := "confidence".data
def kIssues : List Char := "issues".data
def kWarnings : List Char := "warnings".data
def kSuggestions : List Char := "suggestions".data

/-- Fallback returned when `_llm_function is None`. -/
def fallbackNoCapability : List (List Char × Json) :=
  [(kConfidence, .num (1/2)), (kIssues, .arr []),
   (kWarnings, .arr [.str "LLM verification not available".data]),
   (kSuggestions, .arr [])]

/-- Fallback returned from the `except` handler (call raised, or the text
did not decode as the expected structure). -/
def fallbackFailure : List (List Char × Json) :=
  [(kConfidence, .num (1/2)),
   (kIssues, .arr [.str "LLM verification failed".data]),
   (kWarnings, .arr []), (kSuggestions, .arr [])]

/-- The structure-validation block: each of the four keys is assigned its
default when absent. -/
def fillDefaults (d : List (List Char × Json)) : List (List Char × Json) :=
  let d := if (dget d kConfidence).isSome then d
           else dinsert d kConfidence (.num (1/2))
  let d := if (dget d kIssues).isSome then d else dinsert d kIssues (.arr [])
  let d := if (dget d kWarnings).isSome then d
           else dinsert d kWarnings (.arr [])
  if (dget d kSuggestions).isSome then d
  else dinsert d kSuggestions (.arr [])

/-- Model of `verify_with_llm` as a function of the capability behaviour.  A
successful decode that is not a JSON object makes the validation block
raise a `TypeError` (`'confidence' not in result` on a non-container, or
item assignment on a list/str), which the same `except` converts to the
failure fallback; that case is folded into `fallbackFailure` here. -/
def verify_with_llm (b : LLMBehaviour) : List (List Char × Json) :=
  match b with
  | .noCapability => fallbackNoCapability
  | .raises => fallbackFailure
  | .returns text =>
    match decodeResponse text with
    | some (.obj kvs) => fillDefaults kvs
    | some _ => fallbackFailure
    | none => fallbackFailure

/-! ## Structural evaluators -/

/-- The `VerificationResult` as produced by the structural evaluators
(`verify_quiz_question`, `verify_faq_entry`, `verify_rubric`): issues and
warnings are Python lists of strings.  The `content` echo and the
creation `timestamp` are omitted (the timestamp is explicitly excluded by
the idempotence property; `content` is the unchanged input). -/
structure VerificationResult where
  content_type : List Char
  confidence : Rat
  issues : List (List Char)
  warnings : List (List Char)
  needs_review : Bool
deriving DecidableEq

/-- Accumulated output of one check: appended issues, appended warnings
and appended confidence factors, in execution order. -/
structure Check where
  issues : List (List Char)
  warnings : List (List Char)
  factors : List Rat

def combineChecks (cs : List Check) : Check :=
  ⟨cs.flatMap (fun c => c.issues), cs.flatMap (fun c => c.warnings),
   cs.flatMap (fun c => c.factors)⟩

/-- Python `sum(confidence_factors) / len(confidence_factors) if confidence_factors else 0.0`. -/
def meanOr0 (l : List Rat) : Rat := if l = [] then 0 else l.sum / l.length

/-- Python `min` over a non-empty list of naturals (callers guard
non-emptiness, as the source does). -/
def listMinN : List Nat → Nat
  | [] => 0
  | x :: xs => xs.foldl Nat.min x

/-- Python `max` over a non-empty list of naturals. -/
def listMaxN : List Nat → Nat
  | [] => 0
  | x :: xs => xs.foldl Nat.max x

/-- The quiz-question record handed to `verify_quiz_question`: a dict with
optionally-present keys. -/
structure QuizQuestion where
  question : Option (List Char)
  options : Option (List (List Char))
  correct_index : Option Int
deriving DecidableEq

/-- Check 1: question text quality. -/
def quizCheck1 (question_text : List Char) : Check :=
  if question_text.length < 10 then
    ⟨["Question text too short (< 10 characters)".data], [], [0]⟩
  else if question_text.length > 300 then
    ⟨[], ["Question text very long (> 300 characters)".data], [4/5]⟩
  else ⟨[], [], [1]⟩

/-- Check 2: has question mark. -/
def quizCheck2 (question_text : List Char) : Check :=
  if question_text.contains '?' then ⟨[], [], [1]⟩
  else ⟨[], ["Question doesn't contain a question mark".data], [9/10]⟩

/-- Check 3: options validation. -/
def quizCheck3 (options : List (List Char)) : Check :=
  if options.length ≠ 4 then
    ⟨["Expected 4 options, got ".data ++ natChars options.length], [], [0]⟩
  else ⟨[], [], [1]⟩

/-- Check 4 (guarded by `if options:`): option length/quality, then
duplicate detection (`len(options) != len(set(options))`). -/
def quizCheck4 (options : List (List Char)) : Check :=
  match options with
  | [] => ⟨[], [], []⟩
  | o :: os =>
    let option_lengths := (o :: os).map List.length
    let lenCk : Check :=
      if listMinN option_lengths < 2 then
        ⟨["One or more options are too short".data], [], [3/10]⟩
      else if listMaxN option_lengths > 200 then
        ⟨[], ["One or more options are very long".data], [4/5]⟩
      else ⟨[], [], [1]⟩
    let dupCk : Check :=
      if pyHasDup (o :: os) then
        ⟨["Duplicate options detected".data], [], [0]⟩
      else ⟨[], [], [1]⟩
    combineChecks [lenCk, dupCk]

/-- Check 5: `correct_index not in [0, 1, 2, 3]` (an absent key yields
`None`, which is also not in the list). -/
def quizCheck5 (correct_index : Option Int) : Check :=
  match correct_index with
  | some i =>
    if i = 0 ∨ i = 1 ∨ i = 2 ∨ i = 3 then ⟨[], [], [1]⟩
    else ⟨["Invalid correct_index: ".data ++ intChars i], [], [0]⟩
  | none => ⟨["Invalid correct_index: None".data], [], [0]⟩

/-- Check 6 (guarded by `if options and len(options) == 4:`): outlier
length heuristic with a `for ... else` over the lengths. -/
def quizCheck6 (options : List (List Char)) : Check :=
  if options ≠ [] ∧ options.length = 4 then
    let lengths := options.map List.length
    let avg_length : Rat :=
      (lengths.map (fun n => (n : Rat))).sum / (lengths.length : Rat)
    if lengths.any (fun n => (n : Rat) > avg_length * 2) then
      ⟨[],
       ["One option much longer than others (may be obviously correct)".data],
       [17/20]⟩
    else ⟨[], [], [1]⟩
  else ⟨[], [], []⟩

def quizChecks (q : QuizQuestion) : Check :=
  let question_text := q.question.getD []
  let options := q.options.getD []
  combineChecks [quizCheck1 question_text, quizCheck2 question_text,
    quizCheck3 options, quizCheck4 options, quizCheck5 q.correct_index,
    quizCheck6 options]

def verify_quiz_question (q : QuizQuestion) : VerificationResult :=
  let c := quizChecks q
  let confidence := meanOr0 c.factors
  { content_type := "quiz_question".data
    confidence := confidence
    issues := c.issues
    warnings := c.warnings
    needs_review := !c.issues.isEmpty || decide (confidence < 3/4) }

/-- Model of `verify_quiz_batch`: per-question results in input order, plus the
overall confidence. -/
def verify_quiz_batch (questions : List QuizQuestion) :
    List VerificationResult × Rat :=
  let results := questions.map verify_quiz_question
  (results,
   if results = [] then 0
   else (results.map (fun r => r.confidence)).sum / (results.length : Rat))

/-- The FAQ record handed to `verify_faq_entry`. -/
structure FaqEntry where
  question : Option (List Char)
  answer : Option (List Char)
  category : Option (List Char)

/-- FAQ question check: too short → issue 0.0; missing `?` → warning 0.9;
else 1.0. -/
def faqCheckQuestion (question : List Char) : Check :=
  if question.length < 5 then ⟨["Question too short".data], [], [0]⟩
  else if !(question.contains '?') then
    ⟨[], ["Question doesn't end with ?".data], [9/10]⟩
  else ⟨[], [], [1]⟩

/-- FAQ answer check: too short → issue 0.0; very long → warning 0.85;
else 1.0. -/
def faqCheckAnswer (answer : List Char) : Check :=
  if answer.length < 10 then ⟨["Answer too short".data], [], [0]⟩
  else if answer.length > 1000 then
    ⟨[], ["Answer very long (> 1000 chars)".data], [17/20]⟩
  else ⟨[], [], [1]⟩

/-- FAQ category check: `not category or category == 'General'`. -/
def faqCheckCategory (category : List Char) : Check :=
  if category = [] ∨ category = "General".data then
    ⟨[], ["Generic or missing category".data], [4/5]⟩
  else ⟨[], [], [1]⟩

def placeholderTerms : List (List Char) :=
  ["TODO".data, "TBD".data, "FIXME".data, "[insert".data, "coming soon".data]

/-- FAQ placeholder check: any placeholder term occurs case-insensitively
inside the answer. -/
def faqCheckPlaceholder (answer : List Char) : Check :=
  if placeholderTerms.any (fun term => pyInStr (pyLower term) (pyLower answer))
  then ⟨["Answer contains placeholder text".data], [], [0]⟩
  else ⟨[], [], [1]⟩

def faqChecks (faq : FaqEntry) : Check :=
  let question := faq.question.getD []
  let answer := faq.answer.getD []
  let category := faq.category.getD []
  combineChecks [faqCheckQuestion question, faqCheckAnswer answer,
    faqCheckCategory category, faqCheckPlaceholder answer]

def verify_faq_entry (faq : FaqEntry) : VerificationResult :=
  let c := faqChecks faq
  let confidence := meanOr0 c.factors
  { content_type := "faq_entry".data
    confidence := confidence
    issues := c.issues
    warnings := c.warnings
    needs_review := !c.issues.isEmpty || decide (confidence < 3/4) }

/-- One rubric criterion record. -/
structure Criterion where
  name : Option (List Char)
  description : Option (List Char)
  points : Option Int

/-- The rubric record handed to `verify_rubric`. -/
structure Rubric where
  criteria : Option (List Criterion)
  total_points : Option Int

/-- Python `'name' not in criterion or len(criterion['name']) < 2`. -/
def criterionNameInvalid (c : Criterion) : Bool :=
  match c.name with
  | none => true
  | some n => n.length < 2

/-- Python `'description' not in criterion or len(criterion['description']) < 10`. -/
def criterionDescShort (c : Criterion) : Bool :=
  match c.description with
  | none => true
  | some d => d.length < 10

/-- Criterion-count check. -/
def rubricCountCheck (criteria : List Criterion) : Check :=
  if criteria.length < 3 then
    ⟨[], ["Only ".data ++ natChars criteria.length ++
      " criteria (recommend 4+)".data], [4/5]⟩
  else if criteria.length > 10 then
    ⟨[], [natChars criteria.length ++ " criteria may be too many".data],
     [9/10]⟩
  else ⟨[], [], [1]⟩

/-- Point-distribution check against the stated total. -/
def rubricTotalCheck (total_points stated : Int) : Check :=
  if total_points ≠ stated then
    ⟨["Point mismatch: criteria sum to ".data ++ intChars total_points ++
        " but total_points is ".data ++ intChars stated], [], [1/2]⟩
  else ⟨[], [], [1]⟩

/-- Per-criterion checks (0-based position `i`, reported as `i+1`).  Note
that, as in the source, the name and description checks append a factor
only when they fire, while the points chain always appends exactly one. -/
def criterionCheck (stated : Int) (i : Nat) (c : Criterion) : Check :=
  let nameCk : Check :=
    if criterionNameInvalid c then
      ⟨["Criterion ".data ++ natChars (i + 1) ++ " has invalid name".data],
       [], [0]⟩
    else ⟨[], [], []⟩
  let descCk : Check :=
    if criterionDescShort c then
      ⟨[], ["Criterion ".data ++ natChars (i + 1) ++
        " has short description".data], [4/5]⟩
    else ⟨[], [], []⟩
  let points := c.points.getD 0
  let pointsCk : Check :=
    if points ≤ 0 then
      ⟨["Criterion ".data ++ natChars (i + 1) ++ " has invalid points: ".data
          ++ intChars points], [], [0]⟩
    else if (points : Rat) > (stated : Rat) * (1/2) then
      ⟨[], ["Criterion ".data ++ natChars (i + 1) ++ " worth ".data ++
        intChars points ++ " points (>50% of total)".data], [9/10]⟩
    else ⟨[], [], [1]⟩
  combineChecks [nameCk, descCk, pointsCk]

/-- All checks run on a rubric whose `criteria` key is present. -/
def rubricChecks (criteria : List Criterion) (stated : Int) : Check :=
  let total_points := (criteria.map (fun c => c.points.getD 0)).sum
  combineChecks ([rubricCountCheck criteria,
    rubricTotalCheck total_points stated] ++
    criteria.enum.map (fun p => criterionCheck stated p.1 p.2))

def verify_rubric (rubric : Rubric) : VerificationResult :=
  match rubric.criteria with
  | none =>
    { content_type := "rubric".data
      confidence := 0
      issues := ["Missing criteria".data]
      warnings := []
      needs_review := true }
  | some criteria =>
    let stated := rubric.total_points.getD 0
    let c := rubricChecks criteria stated
    let confidence := meanOr0 c.factors
    { content_type := "rubric".data
      confidence := confidence
      issues := c.issues
      warnings := c.warnings
      needs_review := !c.issues.isEmpty || decide (confidence < 4/5) }

/-! ## Answer-correctness check (`verify_quiz_answer_correctness`) -/

/-- Python list indexing `xs[i]`, including negative indices counted from
the end; `none` models an `IndexError`. -/
def pyIndex {α : Type} (xs : List α) (i : Int) : Option α :=
  if 0 ≤ i then xs.get? i.toNat
  else if -(xs.length : Int) ≤ i then xs.get? ((xs.length : Int) + i).toNat
  else none

/-- The `VerificationResult` built by `verify_quiz_answer_correctness`:
its confidence/issues/warnings come from the decoded LLM dictionary, so
issues and warnings are JSON values. -/
structure SemVerificationResult where
  confidence : Rat
  issues : Json
  warnings : Json
  needs_review : Bool

/-- Python numeric coercion for the `llm_result['confidence'] < 0.8`
comparison and for storing the confidence: numbers compare as themselves,
booleans as 0/1, anything else raises `TypeError` (`none`). -/
def jsonNum? (v : Json) : Option Rat :=
  match v with
  | .num q => some q
  | .bool b => some (if b then 1 else 0)
  | _ => none

/-- The path of `verify_quiz_answer_correctness` after a valid index:
call `verify_with_llm` and build the result; threshold 0.8.  `none`
models the uncaught `TypeError` when the decoded confidence is not a
number. -/
def semanticBranch (b : LLMBehaviour) : Option SemVerificationResult :=
  let llm_result := verify_with_llm b
  (jsonNum? (dgetD llm_result kConfidence .null)).map (fun c =>
    { confidence := c
      issues := dgetD llm_result kIssues .null
      warnings := dgetD llm_result kWarnings .null
      needs_review := decide (c < 4/5) })

def verify_quiz_answer_correctness (question : QuizQuestion)
    (b : LLMBehaviour) : Option SemVerificationResult :=
  let options := question.options.getD []
  let correct_index := question.correct_index.getD 0
  if correct_index < (options.length : Int) then
    match pyIndex options correct_index with
    | none => none
    | some _ => semanticBranch b
  else
    some { confidence := 0
           issues := .arr [.str "Invalid correct_index".data]
           warnings := .arr []
           needs_review := true }

/-! ## Concrete records used as test inputs -/

/-- The quiz record of the spec Example 1 (all four options have length
one). -/
def exSpecExample1 : QuizQuestion :=
  { question := some "What is 2+2?".data
    options := some ["3".data, "4".data, "5".data, "6".data]
    correct_index := some 1 }

/-- A quiz record that passes every structural check (the module's own
example). -/
def exGoodQuiz : QuizQuestion :=
  { question := some "What is the capital of France?".data
    options := some ["London".data, "Berlin".data, "Paris".data,
      "Madrid".data]
    correct_index := some 2 }

/-- A single rubric criterion with an empty name, an adequate description
and 10 points. -/
def exCritBadName : Criterion :=
  { name := some []
    description := some "long enough desc here".data
    points := some 10 }

/-- A rubric with one criterion and a consistent stated total. -/
def exRubricOneCrit : Rubric :=
  { criteria := some [exCritBadName]
    total_points := some 10 }

/-- A rubric whose `criteria` key is absent. -/
def exRubricNoCriteria : Rubric :=
  { criteria := none
    total_points := some 100 }

/-- An FAQ record used to witness determinism. -/
def exFaq : FaqEntry :=
  { question := some "How do I submit?".data
    answer := some "TODO: add content".data
    category := some "General".data }

/-- A capability response reporting an out-of-range confidence. -/
def respConfTwo : List Char := "\x7b\"confidence\": 2.0\x7d".data

/-- A capability response reporting high confidence together with a
non-empty issues list. -/
def respHighConfWithIssues : List Char :=
  "\x7b\"confidence\": 0.9, \"issues\": [\"Marked answer incorrect\"]\x7d".data

/-- A response that is not decodable JSON. -/
def respNotJson : List Char := "not json".data

/-! ## Helper lemmas: whitespace trimming and fence stripping -/

def backquote : Char := Char.ofNat 96

theorem fenceChars_eq : fenceChars = [backquote, backquote, backquote] := rfl

theorem dropWhile_head_false {p : Char → Bool} {l : List Char} {a : Char}
    {t : List Char} (h : l.dropWhile p = a :: t) : p a = false := by
  induction l with
  | nil => simp at h
  | cons x xs ih =>
    rw [List.dropWhile_cons] at h
    split at h
    · exact ih h
    · injection h with h1 _
      subst h1
      simpa using ‹¬ (p x = true)›

theorem dropWhile_append_all {p : Char → Bool} {xs : List Char}
    (ys : List Char) (h : xs.all p = true) :
    (xs ++ ys).dropWhile p = ys.dropWhile p := by
  induction xs with
  | nil => rfl
  | cons x l ih =>
    simp only [List.all_cons, Bool.and_eq_true] at h
    simpa [List.dropWhile_cons, h.1] using ih h.2

theorem dropWhile_append_ne_nil {p : Char → Bool} {xs : List Char}
    (ys : List Char) (h : xs.dropWhile p ≠ []) :
    (xs ++ ys).dropWhile p = xs.dropWhile p ++ ys := by
  induction xs with
  | nil => simp [List.dropWhile] at h
  | cons x l ih =>
    rw [List.cons_append, List.dropWhile_cons, List.dropWhile_cons] at *
    split at h
    · next hx => simpa [hx] using ih h
    · next hx => simp [hx]

theorem dropWhile_append_singleton {p : Char → Bool} {c : Char}
    (xs : List Char) (h : p c = false) :
    (xs ++ [c]).dropWhile p = xs.dropWhile p ++ [c] := by
  by_cases hx : xs.dropWhile p = []
  · rw [hx, dropWhile_append_all [c]]
    · simp [List.dropWhile_cons, h]
    · exact List.all_eq_true.2 ((List.dropWhile_eq_nil_iff).1 hx)
  · exact dropWhile_append_ne_nil [c] hx

theorem trimL_cons_nws {c : Char} (l : List Char) (h : isWs c = false) :
    trimL (c :: l) = c :: l := by
  simp [trimL, List.dropWhile_cons, h]

theorem trimR_cons_nws {c : Char} (l : List Char) (h : isWs c = false) :
    trimR (c :: l) = c :: trimR l := by
  unfold trimR trimL
  rw [List.reverse_cons, dropWhile_append_singleton _ h, List.reverse_append]
  rfl

theorem trimL_head_nws {l : List Char} {c : Char} {r : List Char}
    (h : trimL l = c :: r) : isWs c = false :=
  dropWhile_head_false h

theorem pyStrip_of_trimL_cons {t : List Char} {c : Char} {r : List Char}
    (h : trimL t = c :: r) : pyStrip t = c :: trimR r := by
  rw [pyStrip, h, trimR_cons_nws _ (trimL_head_nws h)]

theorem trimR_trimR (l : List Char) : trimR (trimR l) = trimR l := by
  unfold trimR trimL
  rw [List.reverse_reverse, List.dropWhile_idempotent]

theorem pyStrip_pyStrip (t : List Char) : pyStrip (pyStrip t) = pyStrip t := by
  cases h : trimL t with
  | nil =>
    have h0 : pyStrip t = [] := by rw [pyStrip, h]; rfl
    rw [h0]; rfl
  | cons c r =>
    have hc := trimL_head_nws h
    rw [pyStrip_of_trimL_cons h, pyStrip, trimL_cons_nws _ hc,
      trimR_cons_nws _ hc, trimR_trimR]

theorem isPrefixOf_cons_ne {a c : Char} (as l : List Char) (h : a ≠ c) :
    (a :: as).isPrefixOf (c :: l) = false := by
  simp [List.isPrefixOf, h]

/-- A successful parse pins down the first non-whitespace character: it is
a value-starting character, hence neither a backquote nor a `j`. -/
theorem parseJ_starter {fuel : Nat} {t : List Char} {res : Json × List Char}
    (h : parseJ fuel t = some res) :
    ∃ c r, t.dropWhile isWs = c :: r ∧ c ≠ backquote ∧ c ≠ 'j' := by
  match fuel with
  | 0 => simp [parseJ] at h
  | fuel + 1 =>
    rw [parseJ] at h
    split at h
    · simp at h
    · next c r heq =>
      have hc : c = 'n' ∨ c = 't' ∨ c = 'f' ∨ c = '"' ∨ c = '[' ∨
          c = '\x7b' ∨ (c = '-' || c.isDigit) = true := by
        by_contra hor
        push_neg at hor
        obtain ⟨n1, n2, n3, n4, n5, n6, n7⟩ := hor
        rw [if_neg n1, if_neg n2, if_neg n3, if_neg n4, if_neg n5, if_neg n6,
          if_neg n7] at h
        simp at h
      refine ⟨c, r, heq, ?_, ?_⟩ <;>
      · rcases hc with hc | hc | hc | hc | hc | hc | hc
        · subst hc; decide
        · subst hc; decide
        · subst hc; decide
        · subst hc; decide
        · subst hc; decide
        · subst hc; decide
        · rcases Bool.or_eq_true_iff.1 hc with hc | hc
          · have : c = '-' := by simpa using hc
            subst this; decide
          · intro heq
            subst heq
            exact absurd hc (by decide)

theorem jsonLoads_head {t : List Char} {v : Json} (h : jsonLoads t = some v) :
    ∃ c r, trimL t = c :: r ∧ isWs c = false ∧ c ≠ backquote ∧ c ≠ 'j' := by
  unfold jsonLoads at h
  split at h
  · next p hp =>
    obtain ⟨c, r, hd, hbq, hj⟩ := parseJ_starter hp
    exact ⟨c, r, hd, dropWhile_head_false hd, hbq, hj⟩
  · simp at h

theorem fence_isPrefixOf_bbb (X : List Char) :
    fenceChars.isPrefixOf
      (backquote :: backquote :: backquote :: X) = true := by
  rw [fenceChars_eq]
  simp [List.isPrefixOf]

theorem json_isPrefixOf_json (X : List Char) :
    "json".data.isPrefixOf ('j' :: 's' :: 'o' :: 'n' :: X) = true := by
  have hjs : "json".data = ['j', 's', 'o', 'n'] := rfl
  rw [hjs]
  simp [List.isPrefixOf]

theorem dropWhile_trimL {t : List Char} {c : Char} {r : List Char}
    (hc : trimL t = c :: r) : (trimL t).dropWhile isWs = c :: r := by
  unfold trimL at *
  rw [List.dropWhile_idempotent, hc]

theorem dropWhile_ws_glue {ws1 t : List Char} (Y : List Char)
    (h1 : ws1.all isWs = true) {c : Char} {r : List Char}
    (hc : trimL t = c :: r) :
    (ws1 ++ (t ++ Y)).dropWhile isWs = (c :: r) ++ Y := by
  rw [dropWhile_append_all _ h1]
  rw [show t ++ Y = t.takeWhile isWs ++ (trimL t ++ Y) by
    rw [← List.append_assoc]
    unfold trimL
    rw [List.takeWhile_append_dropWhile]]
  rw [dropWhile_append_all _ (List.all_takeWhile (p := isWs) (l := t))]
  rw [dropWhile_append_ne_nil Y (by rw [dropWhile_trimL hc]; simp)]
  rw [dropWhile_trimL hc]

theorem json_marker_absent {ws1 t : List Char} (Y : List Char)
    (h1 : ws1.all isWs = true) {c : Char} {r : List Char}
    (hc : trimL t = c :: r) (hcj : c ≠ 'j') :
    "json".data.isPrefixOf (ws1 ++ (t ++ Y)) = false := by
  have hjs : "json".data = 'j' :: "son".data := rfl
  cases ws1 with
  | cons w l =>
    have hw : isWs w = true := by
      simp only [List.all_cons, Bool.and_eq_true] at h1
      exact h1.1
    rw [List.cons_append, hjs]
    refine isPrefixOf_cons_ne _ _ (fun he => ?_)
    rw [← he] at hw
    exact absurd hw (by decide)
  | nil =>
    rw [List.nil_append]
    cases htk : t.takeWhile isWs with
    | cons u l2 =>
      have hu : isWs u = true := by
        have hall := List.all_takeWhile (p := isWs) (l := t)
        rw [htk] at hall
        simp only [List.all_cons, Bool.and_eq_true] at hall
        exact hall.1
      rw [show t ++ Y = u :: (l2 ++ (trimL t ++ Y)) by
        conv_lhs => rw [show t = t.takeWhile isWs ++ trimL t by
          unfold trimL
          rw [List.takeWhile_append_dropWhile]]
        rw [htk]
        simp]
      rw [hjs]
      refine isPrefixOf_cons_ne _ _ (fun he => ?_)
      rw [← he] at hu
      exact absurd hu (by decide)
    | nil =>
      have ht : t = c :: r := by
        have hsplit := List.takeWhile_append_dropWhile (p := isWs) (l := t)
        rw [htk, List.nil_append] at hsplit
        rw [← hsplit]
        exact hc
      rw [ht, List.cons_append, hjs]
      exact isPrefixOf_cons_ne _ _ (fun he => hcj he.symm)

theorem pyStrip_wrapped (A : List Char) :
    pyStrip (backquote :: (A ++ fenceChars)) =
      backquote :: (A ++ fenceChars) := by
  have hb : isWs backquote = false := by decide
  rw [pyStrip, trimL_cons_nws _ hb]
  unfold trimR
  rw [show (backquote :: (A ++ fenceChars)).reverse =
      backquote :: (backquote :: backquote :: A.reverse ++ [backquote]) by
    simp [fenceChars_eq]]
  rw [trimL_cons_nws _ hb]
  rw [show backquote :: (backquote :: backquote :: A.reverse ++ [backquote]) =
      (backquote :: (A ++ fenceChars)).reverse by simp [fenceChars_eq]]
  rw [List.reverse_reverse]

theorem stripFenceClose_glue {t : List Char} {c : Char} {r : List Char}
    (hc : trimL t = c :: r) {ws2 : List Char} (h2 : ws2.all isWs = true) :
    stripFenceClose ((c :: r) ++ (ws2 ++ fenceChars)) = pyStrip t := by
  unfold stripFenceClose
  rw [show ((c :: r) ++ (ws2 ++ fenceChars)).reverse =
      backquote :: backquote :: backquote ::
        (ws2.reverse ++ (c :: r).reverse) by simp [fenceChars_eq]]
  rw [if_pos (fence_isPrefixOf_bbb _)]
  rw [show (backquote :: backquote :: backquote ::
      (ws2.reverse ++ (c :: r).reverse)).drop 3 =
      ws2.reverse ++ (c :: r).reverse from rfl]
  rw [dropWhile_append_all _ (by rw [List.all_reverse]; exact h2)]
  rw [pyStrip, hc]
  rfl

/-- A syntactically valid JSON response is decoded as written: the
code-fence branch is not entered. -/
theorem decodeResponse_plain {t : List Char} {v : Json}
    (h : jsonLoads t = some v) :
    decodeResponse t = jsonLoads (pyStrip t) := by
  obtain ⟨c, r, hc, _, hbq, _⟩ := jsonLoads_head h
  have hnp : fenceChars.isPrefixOf (pyStrip t) = false := by
    rw [pyStrip_of_trimL_cons hc, fenceChars_eq]
    exact isPrefixOf_cons_ne _ _ (fun hb => hbq hb.symm)
  simp only [decodeResponse]
  rw [hnp]
  simp

theorem stripFenceOpen_bbb {ws1 t ws2 : List Char} {c : Char} {r : List Char}
    (h1 : ws1.all isWs = true) (hc : trimL t = c :: r) (hcj : c ≠ 'j') :
    stripFenceOpen (backquote :: backquote :: backquote ::
        (ws1 ++ (t ++ (ws2 ++ fenceChars)))) =
      (c :: r) ++ (ws2 ++ fenceChars) := by
  simp only [stripFenceOpen]
  rw [if_pos (fence_isPrefixOf_bbb _)]
  rw [show (backquote :: backquote :: backquote ::
      (ws1 ++ (t ++ (ws2 ++ fenceChars)))).drop 3 =
      ws1 ++ (t ++ (ws2 ++ fenceChars)) from rfl]
  rw [json_marker_absent _ h1 hc hcj]
  simp only [Bool.false_eq_true, if_false]
  exact dropWhile_ws_glue _ h1 hc

theorem stripFenceOpen_bbbjson {ws1 t ws2 : List Char} {c : Char}
    {r : List Char} (h1 : ws1.all isWs = true) (hc : trimL t = c :: r) :
    stripFenceOpen (backquote :: backquote :: backquote :: 'j' :: 's' :: 'o'
        :: 'n' :: (ws1 ++ (t ++ (ws2 ++ fenceChars)))) =
      (c :: r) ++ (ws2 ++ fenceChars) := by
  simp only [stripFenceOpen]
  rw [if_pos (fence_isPrefixOf_bbb _)]
  rw [show (backquote :: backquote :: backquote :: 'j' :: 's' :: 'o' :: 'n' ::
      (ws1 ++ (t ++ (ws2 ++ fenceChars)))).drop 3 =
      'j' :: 's' :: 'o' :: 'n' :: (ws1 ++ (t ++ (ws2 ++ fenceChars)))
      from rfl]
  rw [json_isPrefixOf_json]
  simp only [if_true]
  rw [show ('j' :: 's' :: 'o' :: 'n' ::
      (ws1 ++ (t ++ (ws2 ++ fenceChars)))).drop 4 =
      ws1 ++ (t ++ (ws2 ++ fenceChars)) from rfl]
  exact dropWhile_ws_glue _ h1 hc

/-- Wrapping a syntactically valid JSON response in Markdown code fences
leaves the decoded value unchanged: the pipeline reduces the fenced text to
the stripped body. -/
theorem decodeResponse_wrapped {t : List Char} {v : Json}
    (pre ws1 ws2 : List Char)
    (hpre : pre = "```".data ∨ pre = "```json".data)
    (h1 : ws1.all isWs = true) (h2 : ws2.all isWs = true)
    (h : jsonLoads t = some v) :
    decodeResponse (pre ++ (ws1 ++ (t ++ (ws2 ++ fenceChars)))) =
      jsonLoads (pyStrip t) := by
  obtain ⟨c, r, hc, hws, hbq, hj⟩ := jsonLoads_head h
  rcases hpre with hp | hp <;> subst hp
  · rw [show "```".data ++ (ws1 ++ (t ++ (ws2 ++ fenceChars))) =
        backquote :: (backquote :: backquote ::
          (ws1 ++ (t ++ ws2)) ++ fenceChars) by simp [fenceChars_eq] <;> decide]
    simp only [decodeResponse]
    rw [pyStrip_wrapped]
    rw [show backquote :: (backquote :: backquote ::
        (ws1 ++ (t ++ ws2)) ++ fenceChars) =
        backquote :: backquote :: backquote ::
          (ws1 ++ (t ++ (ws2 ++ fenceChars))) by simp]
    rw [fence_isPrefixOf_bbb]
    simp only [if_true]
    rw [stripFenceOpen_bbb h1 hc hj, stripFenceClose_glue hc h2,
      pyStrip_pyStrip]
  · rw [show "```json".data ++ (ws1 ++ (t ++ (ws2 ++ fenceChars))) =
        backquote :: (backquote :: backquote :: 'j' :: 's' :: 'o' :: 'n' ::
          (ws1 ++ (t ++ ws2)) ++ fenceChars) by simp [fenceChars_eq] <;> decide]
    simp only [decodeResponse]
    rw [pyStrip_wrapped]
    rw [show backquote :: (backquote :: backquote :: 'j' :: 's' :: 'o' :: 'n'
        :: (ws1 ++ (t ++ ws2)) ++ fenceChars) =
        backquote :: backquote :: backquote :: 'j' :: 's' :: 'o' :: 'n' ::
          (ws1 ++ (t ++ (ws2 ++ fenceChars))) by simp]
    rw [fence_isPrefixOf_bbb]
    simp only [if_true]
    rw [stripFenceOpen_bbbjson h1 hc, stripFenceClose_glue hc h2,
      pyStrip_pyStrip]

/-! ## Confidence-factor bounds -/

theorem meanOr0_bounds {l : List Rat} (h : ∀ x ∈ l, 0 ≤ x ∧ x ≤ 1) :
    0 ≤ meanOr0 l ∧ meanOr0 l ≤ 1 := by
  unfold meanOr0
  split
  · norm_num
  · next hne =>
    have hlen : 0 < (l.length : Rat) := by
      exact_mod_cast List.length_pos.2 hne
    refine ⟨div_nonneg (List.sum_nonneg (fun x hx => (h x hx).1))
      (le_of_lt hlen), ?_⟩
    rw [div_le_one hlen]
    have := List.sum_le_card_nsmul l 1 (fun x hx => (h x hx).2)
    simpa using this

theorem quizCheck1_factors (s : List Char) :
    ∀ x ∈ (quizCheck1 s).factors, 0 ≤ x ∧ x ≤ 1 := by
  intro x hx
  unfold quizCheck1 at hx
  split_ifs at hx <;> simp at hx <;> subst hx <;> norm_num

theorem quizCheck2_factors (s : List Char) :
    ∀ x ∈ (quizCheck2 s).factors, 0 ≤ x ∧ x ≤ 1 := by
  intro x hx
  unfold quizCheck2 at hx
  split_ifs at hx <;> simp at hx <;> subst hx <;> norm_num

theorem quizCheck3_factors (o : List (List Char)) :
    ∀ x ∈ (quizCheck3 o).factors, 0 ≤ x ∧ x ≤ 1 := by
  intro x hx
  unfold quizCheck3 at hx
  split_ifs at hx <;> simp at hx <;> subst hx <;> norm_num

theorem quizCheck4_factors (o : List (List Char)) :
    ∀ x ∈ (quizCheck4 o).factors, 0 ≤ x ∧ x ≤ 1 := by
  intro x hx
  unfold quizCheck4 at hx
  split at hx
  · simp at hx
  · unfold combineChecks at hx
    simp only [List.flatMap_cons, List.flatMap_nil, List.append_nil] at hx
    rw [List.mem_append] at hx
    rcases hx with hx | hx <;>
      (split_ifs at hx <;> simp at hx <;> subst hx <;> norm_num)

theorem quizCheck5_factors (i : Option Int) :
    ∀ x ∈ (quizCheck5 i).factors, 0 ≤ x ∧ x ≤ 1 := by
  intro x hx
  unfold quizCheck5 at hx
  split at hx <;> (try split_ifs at hx) <;> simp at hx <;> subst hx <;>
    norm_num

theorem quizCheck6_factors (o : List (List Char)) :
    ∀ x ∈ (quizCheck6 o).factors, 0 ≤ x ∧ x ≤ 1 := by
  intro x hx
  unfold quizCheck6 at hx
  simp only [List.any_eq_true] at hx
  split_ifs at hx <;> simp at hx <;> subst hx <;> norm_num

theorem quizChecks_factors (q : QuizQuestion) :
    ∀ x ∈ (quizChecks q).factors, 0 ≤ x ∧ x ≤ 1 := by
  intro x hx
  unfold quizChecks combineChecks at hx
  simp only [List.mem_flatMap, List.mem_cons, List.not_mem_nil,
    or_false] at hx
  obtain ⟨c, hc, hxc⟩ := hx
  rcases hc with rfl | rfl | rfl | rfl | rfl | rfl
  · exact quizCheck1_factors _ x hxc
  · exact quizCheck2_factors _ x hxc
  · exact quizCheck3_factors _ x hxc
  · exact quizCheck4_factors _ x hxc
  · exact quizCheck5_factors _ x hxc
  · exact quizCheck6_factors _ x hxc

theorem faqChecks_factors (f : FaqEntry) :
    ∀ x ∈ (faqChecks f).factors, 0 ≤ x ∧ x ≤ 1 := by
  intro x hx
  unfold faqChecks combineChecks at hx
  simp only [List.mem_flatMap, List.mem_cons, List.not_mem_nil,
    or_false] at hx
  obtain ⟨c, hc, hxc⟩ := hx
  rcases hc with rfl | rfl | rfl | rfl <;>
  · first
    | (unfold faqCheckQuestion at hxc
       split_ifs at hxc <;> simp at hxc <;> subst hxc <;> norm_num)
    | (unfold faqCheckAnswer at hxc
       split_ifs at hxc <;> simp at hxc <;> subst hxc <;> norm_num)
    | (unfold faqCheckCategory at hxc
       split_ifs at hxc <;> simp at hxc <;> subst hxc <;> norm_num)
    | (unfold faqCheckPlaceholder at hxc
       split_ifs at hxc <;> simp at hxc <;> subst hxc <;> norm_num)

theorem criterionCheck_factors (st : Int) (i : Nat) (c : Criterion) :
    ∀ x ∈ (criterionCheck st i c).factors, 0 ≤ x ∧ x ≤ 1 := by
  intro x hx
  unfold criterionCheck combineChecks at hx
  simp only [List.flatMap_cons, List.flatMap_nil, List.append_nil] at hx
  rw [List.mem_append, List.mem_append] at hx
  rcases hx with hx | hx | hx <;>
    (split_ifs at hx <;> simp at hx <;> subst hx <;> norm_num)

theorem rubricChecks_factors (criteria : List Criterion) (stated : Int) :
    ∀ x ∈ (rubricChecks criteria stated).factors, 0 ≤ x ∧ x ≤ 1 := by
  intro x hx
  unfold rubricChecks combineChecks at hx
  simp only [List.mem_flatMap, List.mem_append, List.mem_cons,
    List.not_mem_nil, or_false, List.mem_map] at hx
  obtain ⟨c, hc, hxc⟩ := hx
  rcases hc with (rfl | rfl) | ⟨p, _, rfl⟩
  · unfold rubricCountCheck at hxc
    split_ifs at hxc <;> simp at hxc <;> subst hxc <;> norm_num
  · unfold rubricTotalCheck at hxc
    split_ifs at hxc <;> simp at hxc <;> subst hxc <;> norm_num
  · exact criterionCheck_factors _ _ _ x hxc

/-- The review decision as computed by every structural evaluator. -/
theorem needs_review_iff (i : List (List Char)) (conf thr : Rat) :
    (!i.isEmpty || decide (conf < thr)) = true ↔ (i ≠ [] ∨ conf < thr) := by
  cases i <;> simp

/-! ## Claim theorems -/

/-- C1, counterexample: the claim says every degradation case yields
exactly one warning and empty issues, but when the injected capability
raises, `verify_with_llm` returns empty warnings and the single diagnostic
in `issues`. -/
theorem c1_counterexample :
    dgetD (verify_with_llm .raises) kWarnings .null = .arr [] ∧
    dgetD (verify_with_llm .raises) kIssues .null =
      .arr [.str "LLM verification failed".data] ∧
    Json.arr [.str "LLM verification failed".data] ≠ Json.arr [] := by
  refine ⟨rfl, rfl, fun h => ?_⟩
  injection h with h2
  simp at h2

/-- C1, amended: in every degradation case (no capability registered, the
call raising, the text failing to decode) `verify_with_llm` returns
confidence 0.5, empty suggestions, and exactly one diagnostic, without
raising — but the diagnostic is a warning (with empty issues) only in the
no-capability case; a raise or a decode failure produces one issue and
empty warnings. -/
theorem c1_degradation_behaviour :
    (dgetD (verify_with_llm .noCapability) kConfidence .null = .num (1/2) ∧
     dgetD (verify_with_llm .noCapability) kIssues .null = .arr [] ∧
     dgetD (verify_with_llm .noCapability) kWarnings .null =
       .arr [.str "LLM verification not available".data] ∧
     dgetD (verify_with_llm .noCapability) kSuggestions .null = .arr []) ∧
    (dgetD (verify_with_llm .raises) kConfidence .null = .num (1/2) ∧
     dgetD (verify_with_llm .raises) kIssues .null =
       .arr [.str "LLM verification failed".data] ∧
     dgetD (verify_with_llm .raises) kWarnings .null = .arr [] ∧
     dgetD (verify_with_llm .raises) kSuggestions .null = .arr []) ∧
    (∀ t, decodeResponse t = none →
      verify_with_llm (.returns t) = verify_with_llm .raises) := by
  refine ⟨⟨rfl, rfl, rfl, rfl⟩, ⟨rfl, rfl, rfl, rfl⟩, fun t ht => ?_⟩
  simp only [verify_with_llm, ht]

/-- C1, witness: a concrete undecodable response takes the failure
fallback. -/
theorem c1_degradation_behaviour_witness :
    decodeResponse respNotJson = none ∧
    verify_with_llm (.returns respNotJson) = verify_with_llm .raises :=
  ⟨rfl, c1_degradation_behaviour.2.2 respNotJson rfl⟩

/-- C3, counterexample: the spec Example 1 record does not produce
confidence 1.0 with no issues — every option has length 1, which trips the
minimum-option-length check. -/
theorem c3_counterexample :
    ¬ ((verify_quiz_question exSpecExample1).confidence = 1 ∧
       (verify_quiz_question exSpecExample1).needs_review = false ∧
       (verify_quiz_question exSpecExample1).issues = [] ∧
       (verify_quiz_question exSpecExample1).warnings = []) := by
  intro h
  have h1 : (verify_quiz_question exSpecExample1).confidence = 9/10 := by
    with_unfolding_all rfl
  have h2 := h.1
  rw [h1] at h2
  norm_num at h2

/-- C3, amended: on the Example 1 record `verify_quiz_question` returns
confidence 0.9, `needs_review` true, exactly the option-too-short issue
and no warnings. -/
theorem c3_example1_actual :
    (verify_quiz_question exSpecExample1).confidence = 9/10 ∧
    (verify_quiz_question exSpecExample1).needs_review = true ∧
    (verify_quiz_question exSpecExample1).issues =
      ["One or more options are too short".data] ∧
    (verify_quiz_question exSpecExample1).warnings = [] := by
  with_unfolding_all exact ⟨rfl, rfl, rfl, rfl⟩

/-- C7: a rubric with no `criteria` key short-circuits to confidence 0.0,
`needs_review` true, exactly one issue and no warnings. -/
theorem c7_missing_criteria_short_circuit (r : Rubric)
    (h : r.criteria = none) :
    (verify_rubric r).confidence = 0 ∧
    (verify_rubric r).needs_review = true ∧
    (verify_rubric r).issues = ["Missing criteria".data] ∧
    (verify_rubric r).warnings = [] := by
  simp [verify_rubric, h]

/-- C7, witness: the concrete criteria-less rubric. -/
theorem c7_missing_criteria_short_circuit_witness :
    exRubricNoCriteria.criteria = none ∧
    (verify_rubric exRubricNoCriteria).confidence = 0 ∧
    (verify_rubric exRubricNoCriteria).needs_review = true ∧
    (verify_rubric exRubricNoCriteria).issues = ["Missing criteria".data] ∧
    (verify_rubric exRubricNoCriteria).warnings = [] :=
  ⟨rfl, c7_missing_criteria_short_circuit exRubricNoCriteria rfl⟩

/-- C8: for a response that is valid JSON, wrapping it in Markdown code
fences (with or without the `json` language tag, and with any surrounding
whitespace) yields exactly the same result dictionary as the unwrapped
response. -/
theorem c8_fence_equivalence (t ws1 ws2 pre : List Char)
    (hpre : pre = "```".data ∨ pre = "```json".data)
    (h1 : ws1.all isWs = true) (h2 : ws2.all isWs = true)
    (hv : (jsonLoads t).isSome) :
    verify_with_llm (.returns (pre ++ (ws1 ++ (t ++ (ws2 ++ fenceChars)))))
      = verify_with_llm (.returns t) := by
  obtain ⟨v, hv2⟩ := Option.isSome_iff_exists.1 hv
  have e1 := decodeResponse_wrapped pre ws1 ws2 hpre h1 h2 hv2
  have e2 := decodeResponse_plain hv2
  simp only [verify_with_llm]
  rw [e1, e2]

/-- C8, witness: a fenced `null` reply equals the bare one. -/
theorem c8_fence_equivalence_witness :
    ("```json".data = "```".data ∨ "```json".data = "```json".data) ∧
    (['\n'].all isWs = true) ∧ ((jsonLoads "null".data).isSome = true) ∧
    verify_with_llm (.returns ("```json".data ++ (['\n'] ++ ("null".data ++
      (['\n'] ++ fenceChars))))) = verify_with_llm (.returns "null".data) :=
  ⟨Or.inr rfl, rfl, rfl,
   c8_fence_equivalence "null".data ['\n'] ['\n'] "```json".data
     (Or.inr rfl) rfl rfl rfl⟩

/-- C9: the structural evaluators are deterministic functions of their
input record — equal inputs give equal results (the embedding carries no
timestamp and no mutable state, mirroring the fact that the Python
functions read nothing but their argument). -/
theorem c9_determinism (q q' : QuizQuestion) (f f' : FaqEntry)
    (r r' : Rubric) (hq : q = q') (hf : f = f') (hr : r = r') :
    verify_quiz_question q = verify_quiz_question q' ∧
    verify_faq_entry f = verify_faq_entry f' ∧
    verify_rubric r = verify_rubric r' := by
  subst hq
  subst hf
  subst hr
  exact ⟨rfl, rfl, rfl⟩

/-- C9, witness: determinism at concrete records. -/
theorem c9_determinism_witness :
    verify_quiz_question exGoodQuiz = verify_quiz_question exGoodQuiz ∧
    verify_faq_entry exFaq = verify_faq_entry exFaq ∧
    verify_rubric exRubricOneCrit = verify_rubric exRubricOneCrit :=
  c9_determinism _ _ _ _ _ _ rfl rfl rfl

/-- C2, counterexample: the confidence invariant fails on the semantic
path — a capability reply reporting confidence 2.0 is passed through
unclamped by `verify_quiz_answer_correctness`. -/
theorem c2_counterexample :
    verify_quiz_answer_correctness exGoodQuiz (.returns respConfTwo) =
      some { confidence := 2
             issues := .arr []
             warnings := .arr []
             needs_review := false } ∧
    ¬ ((2 : Rat) ≤ 1) := by
  constructor
  · with_unfolding_all rfl
  · norm_num

/-- C2, amended: every structural evaluator returns a confidence in
[0, 1]; the answer-correctness check does so whenever the confidence
decoded from the capability reply is itself in [0, 1] (the code passes
the decoded value through unclamped, so the bound is conditional there).
-/
theorem c2_confidence_bounds :
    (∀ q, 0 ≤ (verify_quiz_question q).confidence ∧
      (verify_quiz_question q).confidence ≤ 1) ∧
    (∀ f, 0 ≤ (verify_faq_entry f).confidence ∧
      (verify_faq_entry f).confidence ≤ 1) ∧
    (∀ r, 0 ≤ (verify_rubric r).confidence ∧
      (verify_rubric r).confidence ≤ 1) ∧
    (∀ q b res, verify_quiz_answer_correctness q b = some res →
      (∀ c, jsonNum? (dgetD (verify_with_llm b) kConfidence .null) = some c
        → 0 ≤ c ∧ c ≤ 1) →
      0 ≤ res.confidence ∧ res.confidence ≤ 1) := by
  refine ⟨fun q => meanOr0_bounds (quizChecks_factors q),
    fun f => meanOr0_bounds (faqChecks_factors f), fun r => ?_,
    fun q b res hres hc => ?_⟩
  · cases hcr : r.criteria with
    | none => simp [verify_rubric, hcr]
    | some cs =>
      simp only [verify_rubric, hcr]
      exact meanOr0_bounds (rubricChecks_factors cs _)
  · unfold verify_quiz_answer_correctness at hres
    dsimp only at hres
    split_ifs at hres
    · split at hres
      · simp at hres
      · unfold semanticBranch at hres
        rcases Option.map_eq_some'.1 hres with ⟨cval, hj, hfr⟩
        rw [← hfr]
        exact hc cval hj
    · injection hres with hres2
      rw [← hres2]
      norm_num

/-- C2, witness: with no capability registered the decoded confidence is
0.5 and the result confidence is bounded. -/
theorem c2_confidence_bounds_witness :
    verify_quiz_answer_correctness exGoodQuiz .noCapability =
      some { confidence := 1/2
             issues := .arr []
             warnings := .arr [.str "LLM verification not available".data]
             needs_review := true } ∧
    (0 ≤ (1/2 : Rat) ∧ (1/2 : Rat) ≤ 1) := by
  refine ⟨by with_unfolding_all rfl, ?_⟩
  refine c2_confidence_bounds.2.2.2 exGoodQuiz .noCapability
    { confidence := 1/2
      issues := .arr []
      warnings := .arr [.str "LLM verification not available".data]
      needs_review := true } (by with_unfolding_all rfl) ?_
  intro c hcc
  have h05 : jsonNum? (dgetD (verify_with_llm .noCapability) kConfidence
      .null) = some (1/2 : Rat) := by with_unfolding_all rfl
  rw [h05] at hcc
  injection hcc with h
  rw [← h]
  norm_num

/-- C4, counterexample: in `verify_quiz_answer_correctness` the review
flag ignores the issues list — a reply with confidence 0.9 and a
non-empty issues list yields `needs_review = false`. -/
theorem c4_counterexample :
    verify_quiz_answer_correctness exGoodQuiz
        (.returns respHighConfWithIssues) =
      some { confidence := 9/10
             issues := .arr [.str "Marked answer incorrect".data]
             warnings := .arr []
             needs_review := false } ∧
    Json.arr [.str "Marked answer incorrect".data] ≠ Json.arr [] := by
  refine ⟨by with_unfolding_all rfl, fun h => ?_⟩
  injection h with h2
  simp at h2

/-- C4, amended: for the three structural evaluators `needs_review` is
true whenever issues are non-empty or the confidence is below the
content-type threshold (0.75 for quiz and FAQ, 0.80 for rubric); for the
answer-correctness check `needs_review` is equivalent to
`confidence < 0.80` alone, regardless of issues. -/
theorem c4_needs_review_policy :
    (∀ q, ((verify_quiz_question q).issues ≠ [] ∨
        (verify_quiz_question q).confidence < 3/4) →
      (verify_quiz_question q).needs_review = true) ∧
    (∀ f, ((verify_faq_entry f).issues ≠ [] ∨
        (verify_faq_entry f).confidence < 3/4) →
      (verify_faq_entry f).needs_review = true) ∧
    (∀ r, ((verify_rubric r).issues ≠ [] ∨
        (verify_rubric r).confidence < 4/5) →
      (verify_rubric r).needs_review = true) ∧
    (∀ q b res, verify_quiz_answer_correctness q b = some res →
      (res.needs_review = true ↔ res.confidence < 4/5)) := by
  refine ⟨fun q h => ?_, fun f h => ?_, fun r h => ?_,
    fun q b res hres => ?_⟩
  · exact (needs_review_iff (quizChecks q).issues
      (meanOr0 (quizChecks q).factors) (3/4)).2 h
  · exact (needs_review_iff (faqChecks f).issues
      (meanOr0 (faqChecks f).factors) (3/4)).2 h
  · cases hcr : r.criteria with
    | none => simp [verify_rubric, hcr]
    | some cs =>
      rw [show (verify_rubric r).needs_review =
          (!(rubricChecks cs (r.total_points.getD 0)).issues.isEmpty ||
            decide (meanOr0 (rubricChecks cs
              (r.total_points.getD 0)).factors < 4/5)) by
        simp only [verify_rubric, hcr]]
      refine (needs_review_iff _ _ _).2 ?_
      simpa only [verify_rubric, hcr] using h
  · unfold verify_quiz_answer_correctness at hres
    dsimp only at hres
    split_ifs at hres
    · split at hres
      · simp at hres
      · unfold semanticBranch at hres
        rcases Option.map_eq_some'.1 hres with ⟨cval, _, hfr⟩
        rw [← hfr]
        simp
    · injection hres with hres2
      rw [← hres2]
      norm_num

/-- C4, witness: a structural result with a non-empty issues list is
flagged for review. -/
theorem c4_needs_review_policy_witness :
    (verify_quiz_question exSpecExample1).issues ≠ [] ∧
    (verify_quiz_question exSpecExample1).needs_review = true := by
  have hval : (verify_quiz_question exSpecExample1).issues =
      ["One or more options are too short".data] := by
    with_unfolding_all rfl
  have hne : (verify_quiz_question exSpecExample1).issues ≠ [] := by
    rw [hval]
    simp
  exact ⟨hne, c4_needs_review_policy.1 exSpecExample1 (Or.inl hne)⟩

/-! ## Factor accounting for `verify_rubric` -/

theorem criterionCheck_factors_length (st : Int) (i : Nat) (c : Criterion) :
    (criterionCheck st i c).factors.length =
      (if criterionNameInvalid c then 1 else 0) +
      (if criterionDescShort c then 1 else 0) + 1 := by
  unfold criterionCheck combineChecks
  dsimp only
  split_ifs <;> simp

theorem rubricCountCheck_factors_length (criteria : List Criterion) :
    (rubricCountCheck criteria).factors.length = 1 := by
  unfold rubricCountCheck
  split_ifs <;> rfl

theorem rubricTotalCheck_factors_length (a b : Int) :
    (rubricTotalCheck a b).factors.length = 1 := by
  unfold rubricTotalCheck
  split_ifs <;> rfl

theorem enum_criteria_factors_length (stated : Int) (n : Nat)
    (criteria : List Criterion) :
    (((criteria.enumFrom n).map
        (fun p => criterionCheck stated p.1 p.2)).flatMap
          (fun c => c.factors)).length =
      criteria.length +
        criteria.countP (fun c => criterionNameInvalid c) +
        criteria.countP (fun c => criterionDescShort c) := by
  induction criteria generalizing n with
  | nil => simp
  | cons c cs ih =>
    simp only [List.enumFrom_cons, List.map_cons, List.flatMap_cons,
      List.length_append, List.countP_cons]
    rw [criterionCheck_factors_length, ih (n + 1)]
    simp only [List.length_cons]
    split_ifs <;> omega

theorem rubricChecks_factors_length (criteria : List Criterion)
    (stated : Int) :
    (rubricChecks criteria stated).factors.length =
      2 + criteria.length +
        criteria.countP (fun c => criterionNameInvalid c) +
        criteria.countP (fun c => criterionDescShort c) := by
  unfold rubricChecks combineChecks
  dsimp only
  rw [List.cons_append, List.cons_append, List.nil_append]
  simp only [List.flatMap_cons, List.length_append]
  rw [rubricCountCheck_factors_length, rubricTotalCheck_factors_length]
  rw [show criteria.enum = criteria.enumFrom 0 from rfl]
  rw [enum_criteria_factors_length]
  omega

/-- C5, counterexample: a rubric with one criterion whose name check
fails and whose description check passes collects 4 factors, not the
2 + 4·1 = 6 the claim requires, and its confidence is the mean of those
4 factors (0.675), not a mean of 6. -/
theorem c5_counterexample :
    (rubricChecks [exCritBadName] 10).factors.length = 4 ∧
    ¬ ((rubricChecks [exCritBadName] 10).factors.length = 2 + 4 * 1) ∧
    (verify_rubric exRubricOneCrit).confidence = 27/40 := by
  refine ⟨by with_unfolding_all rfl, ?_, by with_unfolding_all rfl⟩
  have h4 : (rubricChecks [exCritBadName] 10).factors.length = 4 := by
    with_unfolding_all rfl
  rw [h4]
  omega

/-- C5, amended: with `criteria` present, the two global checks always
contribute one factor each and every criterion contributes one factor for
the points chain plus one factor for the name check only when it fails and
one for the description check only when it fails — so the factor count is
2 + k + (#invalid names) + (#short descriptions); the final confidence is
the arithmetic mean of the collected factors. -/
theorem c5_factor_accounting :
    (∀ criteria stated,
      (rubricChecks criteria stated).factors.length =
        2 + criteria.length +
          criteria.countP (fun c => criterionNameInvalid c) +
          criteria.countP (fun c => criterionDescShort c)) ∧
    (∀ r cs, r.criteria = some cs →
      (verify_rubric r).confidence =
        (rubricChecks cs (r.total_points.getD 0)).factors.sum /
          ((rubricChecks cs (r.total_points.getD 0)).factors.length :
            Rat)) := by
  refine ⟨rubricChecks_factors_length, fun r cs h => ?_⟩
  have hne : (rubricChecks cs (r.total_points.getD 0)).factors ≠ [] := by
    intro hnil
    have hl := rubricChecks_factors_length cs (r.total_points.getD 0)
    rw [hnil] at hl
    simp at hl
    omega
  simp only [verify_rubric, h]
  rw [meanOr0, if_neg hne]

/-- C5, witness: the one-criterion rubric instantiates both parts. -/
theorem c5_factor_accounting_witness :
    (rubricChecks [exCritBadName] 10).factors.length = 2 + 1 + 1 + 0 ∧
    exRubricOneCrit.criteria = some [exCritBadName] ∧
    (verify_rubric exRubricOneCrit).confidence =
      (rubricChecks [exCritBadName] 10).factors.sum /
        ((rubricChecks [exCritBadName] 10).factors.length : Rat) :=
  ⟨c5_factor_accounting.1 [exCritBadName] 10, rfl,
   c5_factor_accounting.2 exRubricOneCrit [exCritBadName] rfl⟩

/-- C6: `verify_quiz_batch` maps `verify_quiz_question` positionally over
its input (same length, i-th result from i-th input), its overall
confidence is the arithmetic mean of the result confidences, and the
empty batch yields `([], 0.0)` without error. -/
theorem c6_batch_aggregation :
    (∀ qs, (verify_quiz_batch qs).1.length = qs.length) ∧
    (∀ qs i, (verify_quiz_batch qs).1.get? i =
      (qs.get? i).map verify_quiz_question) ∧
    (∀ qs, (verify_quiz_batch qs).2 = if qs = [] then 0 else
      ((verify_quiz_batch qs).1.map (fun r => r.confidence)).sum /
        (qs.length : Rat)) ∧
    verify_quiz_batch [] = ([], 0) := by
  refine ⟨fun qs => by simp [verify_quiz_batch], fun qs i => ?_,
    fun qs => ?_, rfl⟩
  · simp [verify_quiz_batch, List.get?_map]
  · simp only [verify_quiz_batch]
    by_cases h : qs = []
    · subst h
      simp
    · rw [if_neg (by simpa using h), if_neg h, List.length_map]

/-- C10: a negative `correct_index` within `-len(options)` passes the
`correct_index < len(options)` guard, so the invalid-index branch is not
taken: the option counted from the end of the list is selected and the
semantic check proceeds. -/
theorem c10_negative_index_semantic_path (q : QuizQuestion)
    (opts : List (List Char)) (ci : Int) (b : LLMBehaviour)
    (hopts : q.options = some opts) (hci : q.correct_index = some ci)
    (hneg : ci < 0) (hbound : -(opts.length : Int) ≤ ci) :
    verify_quiz_answer_correctness q b = semanticBranch b ∧
    pyIndex opts ci = opts.get? ((opts.length : Int) + ci).toNat ∧
    (pyIndex opts ci).isSome = true := by
  have hguard : ci < (opts.length : Int) := by omega
  have hidx : pyIndex opts ci =
      opts.get? ((opts.length : Int) + ci).toNat := by
    unfold pyIndex
    rw [if_neg (by omega), if_pos hbound]
  have hlt : ((opts.length : Int) + ci).toNat < opts.length := by omega
  have hsome : (pyIndex opts ci).isSome = true := by
    rw [hidx, List.get?_eq_get hlt]
    rfl
  refine ⟨?_, hidx, hsome⟩
  unfold verify_quiz_answer_correctness
  dsimp only
  rw [hopts, hci]
  simp only [Option.getD_some]
  rw [if_pos hguard]
  obtain ⟨a, ha⟩ := Option.isSome_iff_exists.1 hsome
  rw [ha]

/-- C10, witness: `correct_index = -1` with four options reaches the
semantic branch. -/
theorem c10_negative_index_semantic_path_witness :
    verify_quiz_answer_correctness
      { question := some "Pick one?".data
        options := some ["a".data, "b".data, "c".data, "d".data]
        correct_index := some (-1) } .noCapability =
      semanticBranch .noCapability ∧
    pyIndex ["a".data, "b".data, "c".data, "d".data] (-1) =
      (["a".data, "b".data, "c".data, "d".data]).get?
        (((["a".data, "b".data, "c".data, "d".data].length : Int)) +
          -1).toNat ∧
    (pyIndex ["a".data, "b".data, "c".data, "d".data] (-1)).isSome = true :=
  c10_negative_index_semantic_path _ _ _ _ rfl rfl (by norm_num)
    (by norm_num)

end CanvasCopilot
